import Mathlib

/-!
Shallow embedding of the policy-enforcing git runner, command classifier,
confirmation store and approval flow of `grounded_git_mcp`, together with
proofs of the behavioural claims about them.

Conventions of the embedding:
* Python `int` becomes `Int` (times, exit codes) or `Nat` (counters, lengths).
* The external git process is an oracle `Oracle : List String → GitRunResult`
  supplying the raw process output; everything around it (validation,
  truncation, the approval state machine) is embedded from the source.
* The SHA-256 digest is kept abstract as a parameter `hash : String → String`;
  no claim depends on properties of the digest itself.
* Exceptions become `Except FlowError`; the constructors record which check
  raised (in the source the approval-flow checks raise `ValueError`,
  the runner raises `GitPolicyError` / `GitExecutionError`).
* File-system state of `FileConfirmationStore` (ledger JSON + audit log)
  becomes an explicit `Store` value threaded through the operations.
* Runner invocations (process spawns) are recorded in a trace
  `List RunEvent` so that "the command was never run" is statable.
-/

deriving instance DecidableEq for Except

namespace GroundedGitMcp

/-- Python `str.lower()` (ASCII case folding), written over the character
list so that it reduces in the kernel. -/
def toLowerStr (s : String) : String := ⟨s.data.map Char.toLower⟩

/-- Python `str.strip()`: drop leading and trailing whitespace, written over
the character list so that it reduces in the kernel. -/
def stripStr (s : String) : String :=
  ⟨((s.data.dropWhile Char.isWhitespace).reverse.dropWhile Char.isWhitespace).reverse⟩

/-- Embedded from `core/classification.py` (`Classification` dataclass):
kind ∈ {read, write, network, destructive}, risk ∈ {low, medium, high, critical}. -/
structure Classification where
  kind : String
  risk : String
  reason : String
  deriving Repr, DecidableEq

/-- Embedded from `core/classification.py` `_DENY`. -/
def denySet : List String :=
  ["reset", "clean", "rebase", "commit-tree", "update-ref", "push", "fetch", "gc"]

/-- Embedded from `core/classification.py` `_WRITE`. -/
def writeSet : List String :=
  ["add", "rm", "mv", "commit", "stash", "tag", "branch", "merge", "cherry-pick", "revert"]

/-- Embedded from `core/classification.py` `_NETWORK`. -/
def networkSet : List String :=
  ["push", "fetch", "pull", "clone", "ls-remote", "submodule"]

/-- Embedded from `core/classification.py`: the medium-risk subset used inside
the write branch of `classify_git_args`. -/
def mediumWriteSet : List String :=
  ["add", "rm", "mv", "tag", "branch", "stash"]

/-- Embedded from `core/classification.py` `classify_git_args`. -/
def classify_git_args : List String → Classification
  | [] => { kind := "read", risk := "low", reason := "No args." }
  | a :: _ =>
    let sub := toLowerStr a
    if sub ∈ denySet then
      { kind := "destructive", risk := "critical", reason := "Denied subcommand: " ++ sub }
    else if sub ∈ networkSet then
      { kind := "network", risk := "high", reason := "Network subcommand: " ++ sub }
    else if sub ∈ writeSet then
      { kind := "write",
        risk := if sub ∈ mediumWriteSet then "medium" else "high",
        reason := "Write subcommand: " ++ sub }
    else
      { kind := "read", risk := "low", reason := "Assumed read-only: " ++ sub }

/-- Embedded from `core/git_runner.py` `GitRunnerConfig` (the float field
`timeout_s` is omitted: no claim concerns the timeout value). -/
structure GitRunnerConfig where
  max_output_chars : Int
  read_only_allowlist : List String
  deriving Repr, DecidableEq

/-- Default `GitRunnerConfig` values from `core/git_runner.py`. -/
def defaultConfig : GitRunnerConfig :=
  { max_output_chars := 80000
    read_only_allowlist :=
      ["rev-parse", "status", "log", "diff", "show", "branch", "remote", "config",
       "ls-files", "cat-file", "describe", "tag", "grep", "blame", "ls-tree", "merge-base"] }

/-- Embedded from `core/git_runner.py` `_validate_args` (the
`dangerous_flags` set). -/
def dangerousFlags : List String :=
  ["--global", "--system", "--unset", "--unset-all", "--add", "--replace-all",
   "--delete", "--force", "-f"]

/-- Embedded from `core/models.py` `GitRunResult`. -/
structure GitRunResult where
  argv : List String := []
  root : String := ""
  stdout : String
  stderr : String
  exit_code : Int
  duration_ms : Int := 0
  timed_out : Bool := false
  output_truncated : Bool := false
  deriving Repr, DecidableEq

/-- Embedded from `core/git_runner.py` `SafeGitRunner._validate_args`:
returns `some message` when the source raises `GitPolicyError`, else `none`. -/
def validate_args (cfg : GitRunnerConfig) (args_list : List String) (read_only : Bool) :
    Option String :=
  if args_list.isEmpty then some ("Empty git args are not allowed.")
  else if !read_only then none
  else
    let args := args_list.map stripStr
    let lowered := args.map toLowerStr
    let subcmd := lowered.headD ""
    if subcmd ∉ cfg.read_only_allowlist then
      some ("Blocked git subcommand in read-only mode: " ++ subcmd)
    else if dangerousFlags.any (fun f => f ∈ lowered) then
      some ("Blocked potentially mutating git flags in read-only mode.")
    else if subcmd == "branch" && ["-d", "--delete"].any (fun t => t ∈ lowered) then
      some ("Blocked branch deletion in read-only mode.")
    else if subcmd == "tag" && ["-d", "--delete"].any (fun t => t ∈ lowered) then
      some ("Blocked tag deletion in read-only mode.")
    else if subcmd == "remote" && lowered.length ≥ 2
        && lowered.getD 1 "" ∈ ["set-url", "add", "remove", "rename"] then
      some ("Blocked remote mutation in read-only mode.")
    else if subcmd == "config" && lowered.length ≥ 3 then
      some ("Blocked config write in read-only mode.")
    else none

/-- Embedded from `core/git_runner.py` `SafeGitRunner._apply_output_ceiling`.
Returns `(stdout, stderr, output_truncated)`. -/
def apply_output_ceiling (max_output_chars : Int) (stdout stderr : String) :
    String × String × Bool :=
  let max_chars : Nat := (max 1 max_output_chars).toNat
  let combined_len := stdout.length + stderr.length
  if combined_len > max_chars then
    let keep_stderr := min stderr.length (max_chars / 2)
    let keep_stdout := max_chars - keep_stderr
    (stdout.take keep_stdout, stderr.take keep_stderr, true)
  else
    (stdout, stderr, false)

/-- Embedded from `core/confirmations.py` `Preconditions`. -/
structure Preconditions where
  expected_head : Option String := none
  expected_branch : Option String := none
  require_clean : Bool := false
  require_no_conflicts : Bool := true
  deriving Repr, DecidableEq

/-- Embedded from `core/confirmations.py` `Confirmation`. -/
structure Confirmation where
  confirmation_id : String
  root : String
  args : List String
  classification : Classification
  cmd_hash : String
  created_at : Int
  expires_at : Int
  max_uses : Nat := 1
  used : Nat := 0
  preconditions : Preconditions := {}
  deriving Repr, DecidableEq

/-- Embedded from `core/confirmations.py` `Confirmation.is_expired`;
the wall clock `_now()` becomes the explicit parameter `now`. -/
def Confirmation.is_expired (c : Confirmation) (now : Int) : Bool :=
  now > c.expires_at

/-- Embedded from `core/confirmations.py` `Confirmation.can_use`. -/
def Confirmation.can_use (c : Confirmation) (now : Int) : Bool :=
  !(c.is_expired now) && decide (c.used < c.max_uses)

/-- Embedded from `core/confirmations.py` `_stable_cmd_text`. -/
def stable_cmd_text (args : List String) : String :=
  String.intercalate "\n" args

/-- Embedded from `core/confirmations.py` `command_hash`; the SHA-256
digest is abstracted as the parameter `hash`. -/
def command_hash (hash : String → String) (args : List String) : String :=
  hash (stable_cmd_text args)

/-- Embedded from `core/confirmations.py` `new_confirmation_id`; the SHA-256
digest is abstracted as the parameter `hash`. -/
def new_confirmation_id (hash : String → String) (root : String) (now : Int)
    (args : List String) : String :=
  (hash (root ++ "\n" ++ toString now ++ "\n" ++ stable_cmd_text args)).take 16

/-- The persisted ledger `confirmations.json`: a JSON object keyed by
confirmation id, modelled as an insertion-ordered association list
(Python `dict` preserves insertion order; assignment to an existing key
keeps its position). -/
def Ledger := List (String × Confirmation)

/-- Lookup in the ledger, mirroring `dict.get`. -/
def lookupLedger : Ledger → String → Option Confirmation
  | [], _ => none
  | (k, v) :: rest, key => if k == key then some v else lookupLedger rest key

/-- Key assignment in the ledger, mirroring `data[key] = value`. -/
def insertLedger : Ledger → String → Confirmation → Ledger
  | [], key, v => [(key, v)]
  | (k, w) :: rest, key, v =>
    if k == key then (key, v) :: rest else (k, w) :: insertLedger rest key v

/-- One line of `audit.jsonl` (`FileConfirmationStore.audit`); the timestamp
and the free-form `extra` payload are elided, only the action tag and the
confirmation id are kept. -/
structure AuditRecord where
  action : String
  confirmation_id : String
  deriving Repr, DecidableEq

/-- The durable state of `FileConfirmationStore`: the ledger file plus the
append-only audit log. -/
structure Store where
  ledger : List (String × Confirmation)
  audit : List AuditRecord
  deriving Repr, DecidableEq

/-- The payload handed to `mark_used` (the result bundle built by
`execute_confirmed`). -/
structure ExecOutput where
  confirmation_id : String
  args : List String
  output : GitRunResult
  deriving Repr, DecidableEq

namespace FileConfirmationStore

/-- Embedded from `core/confirmations.py` `FileConfirmationStore.get`. -/
def get (st : Store) (confirmation_id : String) : Option Confirmation :=
  lookupLedger st.ledger confirmation_id

/-- Embedded from `core/confirmations.py` `FileConfirmationStore.put`:
persists the confirmation keyed by its id and appends a "proposed"
audit record. -/
def put (st : Store) (c : Confirmation) : Store :=
  { ledger := insertLedger st.ledger c.confirmation_id c
    audit := st.audit ++ [{ action := "proposed", confirmation_id := c.confirmation_id }] }

/-- Embedded from `core/confirmations.py` `FileConfirmationStore.mark_used`:
re-reads the persisted record; if the id is absent it returns without
saving or auditing, otherwise increments the persisted `used` counter and
appends an "executed" audit record. -/
def mark_used (st : Store) (c : Confirmation) (result : ExecOutput) : Store :=
  match lookupLedger st.ledger c.confirmation_id with
  | none => st
  | some raw =>
    { ledger := insertLedger st.ledger c.confirmation_id { raw with used := raw.used + 1 }
      audit := st.audit ++ [{ action := "executed", confirmation_id := c.confirmation_id }] }

end FileConfirmationStore

/-- The external git process, abstracted: maps the argument list handed to the
spawn to the raw captured output (stdout, stderr, exit code, timed-out flag).
Quantifying over oracles quantifies over repository states. -/
def Oracle := List String → GitRunResult

/-- One runner invocation that reached the process spawn, recorded for the
trace of an approval-flow call. -/
structure RunEvent where
  args : List String
  read_only : Bool
  deriving Repr, DecidableEq

/-- The raised exceptions of the embedded code paths. In the source,
`unknownId`/`rootMismatch`/`cannotUse`/`wrongPhrase`/`hashMismatch`/
`preconditionFailed`/`commandRejected` are `ValueError` raised through
`_require_ok`, `policyError` is `GitPolicyError`, and `executionError` is
`GitExecutionError`. -/
inductive FlowError where
  | unknownId
  | rootMismatch
  | cannotUse
  | wrongPhrase
  | hashMismatch
  | preconditionFailed (msg : String)
  | commandRejected (msg : String)
  | policyError (msg : String)
  | executionError (msg : String)
  deriving Repr, DecidableEq

/-- Embedded from `core/git_runner.py` `SafeGitRunner.run`: validate, spawn
(the oracle call, recorded as a `RunEvent`), then apply the output ceiling.
The wall-clock duration is not modelled (`duration_ms := 0`). -/
def SafeGitRunner.run (cfg : GitRunnerConfig) (oracle : Oracle) (rootStr : String)
    (args : List String) (read_only : Bool) :
    Except FlowError GitRunResult × List RunEvent :=
  match validate_args cfg args read_only with
  | some msg => (Except.error (FlowError.policyError msg), [])
  | none =>
    let raw := oracle args
    let t := apply_output_ceiling cfg.max_output_chars raw.stdout raw.stderr
    (Except.ok { raw with
        argv := "git" :: args
        root := rootStr
        stdout := t.1
        stderr := t.2.1
        output_truncated := t.2.2 },
      [{ args := args, read_only := read_only }])

/-- Embedded from `core/git_runner.py` `require_ok`. -/
def require_ok (res : GitRunResult) (context : String) : Except FlowError GitRunResult :=
  if res.exit_code ≠ 0 then
    Except.error (FlowError.executionError (context ++ " failed: " ++ stripStr res.stderr))
  else Except.ok res

/-- Embedded from `tools/approval_flow.py` `_git_stdout`: run, require a zero
exit, return the stripped stdout. -/
def git_stdout (cfg : GitRunnerConfig) (oracle : Oracle) (rootStr : String)
    (args : List String) (context : String) (read_only : Bool) :
    Except FlowError String × List RunEvent :=
  match SafeGitRunner.run cfg oracle rootStr args read_only with
  | (Except.error e, ev) => (Except.error e, ev)
  | (Except.ok res, ev) =>
    match require_ok res context with
    | Except.error e => (Except.error e, ev)
    | Except.ok r => (Except.ok (stripStr r.stdout), ev)

/-- Python truthiness of an optional string (`if p.expected_branch:`):
false for `None` and for the empty string. -/
def optTruthy : Option String → Bool
  | none => false
  | some s => !(s == "")

/-- Embedded from `tools/approval_flow.py` `_check_preconditions`, branch
check: `rev-parse --abbrev-ref HEAD` must match `expected_branch` when set. -/
def check_branch (cfg : GitRunnerConfig) (oracle : Oracle) (rootStr : String)
    (p : Preconditions) : Except FlowError Unit × List RunEvent :=
  if optTruthy p.expected_branch then
    match git_stdout cfg oracle rootStr ["rev-parse", "--abbrev-ref", "HEAD"]
        "precondition(branch)" true with
    | (Except.error e, ev) => (Except.error e, ev)
    | (Except.ok branch, ev) =>
      if branch == p.expected_branch.getD "" then (Except.ok (), ev)
      else
        (Except.error (FlowError.preconditionFailed
          ("Branch changed: expected " ++ p.expected_branch.getD "" ++ ", got " ++ branch)), ev)
  else (Except.ok (), [])

/-- Embedded from `tools/approval_flow.py` `_check_preconditions`, HEAD
check: `rev-parse HEAD` must match `expected_head` when set. -/
def check_head (cfg : GitRunnerConfig) (oracle : Oracle) (rootStr : String)
    (p : Preconditions) : Except FlowError Unit × List RunEvent :=
  if optTruthy p.expected_head then
    match git_stdout cfg oracle rootStr ["rev-parse", "HEAD"] "precondition(head)" true with
    | (Except.error e, ev) => (Except.error e, ev)
    | (Except.ok head, ev) =>
      if head == p.expected_head.getD "" then (Except.ok (), ev)
      else (Except.error (FlowError.preconditionFailed ("HEAD changed since approval.")), ev)
  else (Except.ok (), [])

/-- Embedded from `tools/approval_flow.py` `_check_preconditions`, clean-tree
check: `status --porcelain` must be empty when `require_clean`. -/
def check_clean (cfg : GitRunnerConfig) (oracle : Oracle) (rootStr : String)
    (p : Preconditions) : Except FlowError Unit × List RunEvent :=
  if p.require_clean then
    match git_stdout cfg oracle rootStr ["status", "--porcelain"] "precondition(clean)" true with
    | (Except.error e, ev) => (Except.error e, ev)
    | (Except.ok st, ev) =>
      if st == "" then (Except.ok (), ev)
      else (Except.error (FlowError.preconditionFailed ("Working tree is not clean.")), ev)
  else (Except.ok (), [])

/-- Embedded from `tools/approval_flow.py` `_check_preconditions`, conflicts
check: `diff --name-only --diff-filter=U` must be empty when
`require_no_conflicts`. -/
def check_conflicts (cfg : GitRunnerConfig) (oracle : Oracle) (rootStr : String)
    (p : Preconditions) : Except FlowError Unit × List RunEvent :=
  if p.require_no_conflicts then
    match git_stdout cfg oracle rootStr ["diff", "--name-only", "--diff-filter=U"]
        "precondition(conflicts)" true with
    | (Except.error e, ev) => (Except.error e, ev)
    | (Except.ok unmerged, ev) =>
      if unmerged == "" then (Except.ok (), ev)
      else (Except.error (FlowError.preconditionFailed ("Unmerged/conflicted files detected.")), ev)
  else (Except.ok (), [])

/-- Sequencing of two precondition steps, accumulating the run trace and
stopping at the first raised error. -/
def pcStep (prev : Except FlowError Unit × List RunEvent)
    (next : Unit → Except FlowError Unit × List RunEvent) :
    Except FlowError Unit × List RunEvent :=
  match prev with
  | (Except.error e, ev) => (Except.error e, ev)
  | (Except.ok _, ev) =>
    let n := next ()
    (n.1, ev ++ n.2)

/-- Embedded from `tools/approval_flow.py` `_check_preconditions`: the four
checks in source order (branch, head, clean, conflicts). -/
def check_preconditions (cfg : GitRunnerConfig) (oracle : Oracle) (rootStr : String)
    (p : Preconditions) : Except FlowError Unit × List RunEvent :=
  pcStep (pcStep (pcStep (check_branch cfg oracle rootStr p)
    (fun _ => check_head cfg oracle rootStr p))
    (fun _ => check_clean cfg oracle rootStr p))
    (fun _ => check_conflicts cfg oracle rootStr p)

/-- Embedded from `tools/approval_flow.py` `_CONFIRM_TTL_SECONDS`. -/
def confirmTtlSeconds : Int := 30 * 60

/-- Embedded from `tools/approval_flow.py` `propose_git_command`:
classify, reject critical risk, snapshot HEAD, build and persist the
confirmation. `root` is the already-resolved repository root; `now` is the
wall clock; `st` is the durable store state. Returns the outcome, the new
store state, and the trace of runner invocations. -/
def propose_git_command (cfg : GitRunnerConfig) (oracle : Oracle)
    (hash : String → String) (now : Int) (st : Store) (root : String)
    (args : List String) (expected_branch : Option String) (require_clean : Bool) :
    Except FlowError Confirmation × Store × List RunEvent :=
  let classification := classify_git_args args
  if classification.risk == "critical" then
    (Except.error (FlowError.commandRejected ("Command rejected: " ++ classification.reason)),
     st, [])
  else
    match git_stdout cfg oracle root ["rev-parse", "HEAD"] "propose(expected_head)" true with
    | (Except.error e, ev) => (Except.error e, st, ev)
    | (Except.ok expected_head, ev) =>
      let cid := new_confirmation_id hash root now args
      let c : Confirmation :=
        { confirmation_id := cid
          root := root
          args := args
          classification := classification
          cmd_hash := command_hash hash args
          created_at := now
          expires_at := now + confirmTtlSeconds
          max_uses := 1
          used := 0
          preconditions :=
            { expected_head := some expected_head
              expected_branch := expected_branch
              require_clean := require_clean
              require_no_conflicts := true } }
      (Except.ok c, FileConfirmationStore.put st c, ev)

/-- Embedded from `tools/approval_flow.py` `execute_confirmed`: fetch the
confirmation, validate (root scope, `can_use`, confirmation phrase, command
hash), re-check preconditions, run the command with write allowed, require a
zero exit, then mark the confirmation used. Returns the outcome, the new
store state, and the trace of runner invocations. -/
def execute_confirmed (cfg : GitRunnerConfig) (oracle : Oracle)
    (hash : String → String) (now : Int) (st : Store) (root : String)
    (confirmation_id user_confirmation : String) :
    Except FlowError ExecOutput × Store × List RunEvent :=
  match FileConfirmationStore.get st confirmation_id with
  | none => (Except.error FlowError.unknownId, st, [])
  | some confirmation =>
    if confirmation.root ≠ root then (Except.error FlowError.rootMismatch, st, [])
    else if confirmation.can_use now = false then (Except.error FlowError.cannotUse, st, [])
    else if stripStr user_confirmation ≠ ("I CONFIRM " ++ confirmation_id) then
      (Except.error FlowError.wrongPhrase, st, [])
    else if command_hash hash confirmation.args ≠ confirmation.cmd_hash then
      (Except.error FlowError.hashMismatch, st, [])
    else
      match check_preconditions cfg oracle root confirmation.preconditions with
      | (Except.error e, ev) => (Except.error e, st, ev)
      | (Except.ok _, ev) =>
        match SafeGitRunner.run cfg oracle root confirmation.args false with
        | (Except.error e, ev2) => (Except.error e, st, ev ++ ev2)
        | (Except.ok res, ev2) =>
          match require_ok res "execute_confirmed(run)" with
          | Except.error e => (Except.error e, st, ev ++ ev2)
          | Except.ok _ =>
            let result : ExecOutput :=
              { confirmation_id := confirmation_id
                args := confirmation.args
                output := res }
            (Except.ok result, FileConfirmationStore.mark_used st confirmation result,
             ev ++ ev2)

/-! Concrete scenario material shared by witnesses and counterexamples. -/

/-- A concrete choice for the abstract digest parameter. -/
def idHash : String → String := fun s => s

/-- A process result with exit code zero and empty output. -/
def zeroRunResult : GitRunResult := { stdout := "", stderr := "", exit_code := 0 }

/-- An oracle (repository state) in which every git invocation succeeds with
empty output. -/
def trivialOracle : Oracle := fun _ => zeroRunResult

/-- An oracle in which the read-only precondition queries succeed but the
confirmed command itself exits with code 1. -/
def failingCommitOracle : Oracle := fun args =>
  if args == ["diff", "--name-only", "--diff-filter=U"] then zeroRunResult
  else { stdout := "", stderr := "boom", exit_code := 1 }

/-- A pending confirmation for `git commit -m x`, as `propose` would persist
it (modulo the HEAD snapshot, which is disabled here so that the scenario
does not depend on a particular commit id). -/
def commitConfirmation : Confirmation :=
  { confirmation_id := "tok1"
    root := "/repo"
    args := ["commit", "-m", "x"]
    classification := classify_git_args ["commit", "-m", "x"]
    cmd_hash := "commit\n-m\nx"
    created_at := 0
    expires_at := 100
    max_uses := 1
    used := 0
    preconditions :=
      { expected_head := none, expected_branch := none,
        require_clean := false, require_no_conflicts := true } }

/-- A store holding exactly the pending `commitConfirmation`. -/
def commitStore : Store := { ledger := [("tok1", commitConfirmation)], audit := [] }

/-- A store with an empty ledger and audit log. -/
def emptyStore : Store := { ledger := [], audit := [] }

/-- The result bundle of a successful execution of `commitConfirmation`
under `trivialOracle`. -/
def commitOkOutput : ExecOutput :=
  { confirmation_id := "tok1"
    args := ["commit", "-m", "x"]
    output :=
      { argv := ["git", "commit", "-m", "x"], root := "/repo", stdout := "",
        stderr := "", exit_code := 0, duration_ms := 0, timed_out := false,
        output_truncated := false } }

/-- Recognizer: the outcome of a runner call is a raised `GitPolicyError`. -/
def isPolicyErrorResult : Except FlowError GitRunResult → Bool
  | Except.error (FlowError.policyError _) => true
  | _ => false

/-- Recognizer for the errors raised by the validation steps of
`execute_confirmed` (unknown id, root mismatch, expired or used token, wrong
phrase, command-hash mismatch, failed precondition re-check); in the source
these are the `ValueError`s raised through the flow's `_require_ok`. -/
def FlowError.isValidation : FlowError → Bool
  | FlowError.unknownId => true
  | FlowError.rootMismatch => true
  | FlowError.cannotUse => true
  | FlowError.wrongPhrase => true
  | FlowError.hashMismatch => true
  | FlowError.preconditionFailed _ => true
  | _ => false

/-- All invocations in a trace were made in read-only mode (no mutating
process spawn occurred). -/
def allReadOnly (evs : List RunEvent) : Bool :=
  evs.all (fun ev => ev.read_only)

/-! Helper lemmas. -/

/-- Characters kept by `String.take` in terms of list length. -/
theorem string_length_take (s : String) (n : Nat) : (s.take n).length = min n s.length := by
  rw [String.take_eq]
  exact List.length_take n s.1

/-- Lookup after assignment at the same key. -/
theorem lookup_insert_self (l : Ledger) (k : String) (v : Confirmation) :
    lookupLedger (insertLedger l k v) k = some v := by
  induction l with
  | nil => simp [insertLedger, lookupLedger]
  | cons hd tl ih =>
    obtain ⟨k0, v0⟩ := hd
    by_cases h : k0 == k
    · simp [insertLedger, lookupLedger, h]
    · simp only [insertLedger, lookupLedger, h, if_neg]
      simpa [h] using ih

/-! Claim theorems. -/

/-- C5: for every `Confirmation` and every current time `now`, `can_use`
returns true if and only if `now ≤ expires_at` and `used < max_uses`; in
particular the iff makes a confirmation unusable once `now > expires_at`,
independent of `used`. -/
theorem can_use_iff_unexpired_and_under_max (c : Confirmation) (now : Int) :
    c.can_use now = true ↔ (now ≤ c.expires_at ∧ c.used < c.max_uses) := by
  simp [Confirmation.can_use, Confirmation.is_expired, not_lt]

/-- C4: `classify_git_args` is a pure function of the lowercased first token
(first conjunct: determinism in that token), checked against the three fixed
sets with precedence deny then network then write then the read default,
with risk medium exactly for the six medium write verbs; in particular
`push` and `fetch` fall in the deny branch (destructive/critical), not the
network branch. -/
theorem classify_git_args_spec :
    (∀ xs ys : List String, xs.head?.map toLowerStr = ys.head?.map toLowerStr →
      classify_git_args xs = classify_git_args ys) ∧
    (∀ (a : String) (rest : List String),
      (toLowerStr a ∈ denySet →
        (classify_git_args (a :: rest)).kind = "destructive" ∧
        (classify_git_args (a :: rest)).risk = "critical") ∧
      (toLowerStr a ∉ denySet → toLowerStr a ∈ networkSet →
        (classify_git_args (a :: rest)).kind = "network" ∧
        (classify_git_args (a :: rest)).risk = "high") ∧
      (toLowerStr a ∉ denySet → toLowerStr a ∉ networkSet → toLowerStr a ∈ writeSet →
        toLowerStr a ∈ mediumWriteSet →
        (classify_git_args (a :: rest)).kind = "write" ∧
        (classify_git_args (a :: rest)).risk = "medium") ∧
      (toLowerStr a ∉ denySet → toLowerStr a ∉ networkSet → toLowerStr a ∈ writeSet →
        toLowerStr a ∉ mediumWriteSet →
        (classify_git_args (a :: rest)).kind = "write" ∧
        (classify_git_args (a :: rest)).risk = "high") ∧
      (toLowerStr a ∉ denySet → toLowerStr a ∉ networkSet → toLowerStr a ∉ writeSet →
        (classify_git_args (a :: rest)).kind = "read" ∧
        (classify_git_args (a :: rest)).risk = "low")) ∧
    (classify_git_args ["push"]).kind = "destructive" ∧
    (classify_git_args ["push"]).risk = "critical" ∧
    (classify_git_args ["fetch"]).kind = "destructive" ∧
    (classify_git_args ["fetch"]).risk = "critical" := by
  refine ⟨?_, ?_, by decide, by decide, by decide, by decide⟩
  · intro xs ys h
    match xs, ys with
    | [], [] => rfl
    | [], b :: bs => simp at h
    | a :: as, [] => simp at h
    | a :: as, b :: bs =>
      have h2 : toLowerStr a = toLowerStr b := by simpa using h
      simp only [classify_git_args]
      rw [h2]
  · intro a rest
    refine ⟨?_, ?_, ?_, ?_, ?_⟩ <;> intros <;>
      simp_all [classify_git_args]

/-- Witness for C4 at a concrete input: the capitalized verb "Push" lowers
into the deny set and is classified destructive/critical. -/
theorem classify_git_args_spec_witness :
    (classify_git_args ["Push", "--force"]).kind = "destructive" ∧
    (classify_git_args ["Push", "--force"]).risk = "critical" :=
  (classify_git_args_spec.2.1 "Push" ["--force"]).1 (by decide)

/-- C9: `mark_used` with a confirmation whose id is absent from the persisted
ledger is a silent no-op: the store (ledger and audit log) is returned
unchanged and nothing is raised (the embedding is a total function). -/
theorem mark_used_unknown_id_noop (st : Store) (c : Confirmation) (result : ExecOutput)
    (h : lookupLedger st.ledger c.confirmation_id = none) :
    FileConfirmationStore.mark_used st c result = st := by
  simp [FileConfirmationStore.mark_used, h]

/-- Witness for C9: marking an arbitrary confirmation used against an empty
store changes nothing. -/
theorem mark_used_unknown_id_noop_witness :
    FileConfirmationStore.mark_used emptyStore commitConfirmation commitOkOutput = emptyStore :=
  mark_used_unknown_id_noop emptyStore commitConfirmation commitOkOutput rfl

/-- C10: the output ceiling is total for every integer configuration: the
bound is clamped below by one, and for every configuration and every
stdout/stderr pair the post-truncation combined length is at most
`max 1 max_output_chars`. -/
theorem apply_output_ceiling_total_bound (m : Int) (stdout stderr : String) :
    (apply_output_ceiling m stdout stderr).1.length +
      (apply_output_ceiling m stdout stderr).2.1.length ≤ (max 1 m).toNat := by
  unfold apply_output_ceiling
  by_cases h : stdout.length + stderr.length > (max 1 m).toNat
  · simp only [h, if_true, string_length_take]
    omega
  · simp only [h, if_false]
    omega

/-- C8: the output ceiling is a deterministic pure function: for a positive
budget, an oversized pair is truncated to keep `min (len stderr) (budget/2)`
characters of stderr and the remaining budget of stdout with the truncated
flag set and combined length within the budget, while a pair within the
budget is returned unchanged with the flag clear. -/
theorem apply_output_ceiling_spec (m : Int) (hm : 1 ≤ m) (stdout stderr : String) :
    (stdout.length + stderr.length ≤ m.toNat →
      apply_output_ceiling m stdout stderr = (stdout, stderr, false)) ∧
    (stdout.length + stderr.length > m.toNat →
      apply_output_ceiling m stdout stderr =
        (stdout.take (m.toNat - min stderr.length (m.toNat / 2)),
         stderr.take (min stderr.length (m.toNat / 2)), true) ∧
      (apply_output_ceiling m stdout stderr).1.length +
        (apply_output_ceiling m stdout stderr).2.1.length ≤ m.toNat) := by
  have hmax : max 1 m = m := max_eq_right hm
  constructor
  · intro hle
    unfold apply_output_ceiling
    rw [hmax]
    simp only [gt_iff_lt, if_neg (not_lt.mpr hle)]
  · intro hgt
    have heq : apply_output_ceiling m stdout stderr =
        (stdout.take (m.toNat - min stderr.length (m.toNat / 2)),
         stderr.take (min stderr.length (m.toNat / 2)), true) := by
      unfold apply_output_ceiling
      rw [hmax]
      simp only [gt_iff_lt, if_pos hgt]
    refine ⟨heq, ?_⟩
    rw [heq]
    simp only [string_length_take]
    omega

/-- Witness for C8 at a concrete oversized pair with budget 10: stderr keeps
`min 8 5 = 5` characters, stdout the remaining 5, flag set. -/
theorem apply_output_ceiling_spec_witness :
    apply_output_ceiling 10 "aaaaaaaaaa" "bbbbbbbb" = ("aaaaa", "bbbbb", true) := by
  have h := ((apply_output_ceiling_spec 10 (by decide) "aaaaaaaaaa" "bbbbbbbb").2 (by decide)).1
  rw [h]
  decide

/-- The trace of one runner call: empty (validation refused) or exactly the
one recorded spawn. -/
theorem run_events_cases (cfg : GitRunnerConfig) (oracle : Oracle) (root : String)
    (args : List String) (ro : Bool) :
    (SafeGitRunner.run cfg oracle root args ro).2 = [] ∨
    (SafeGitRunner.run cfg oracle root args ro).2 = [{ args := args, read_only := ro }] := by
  unfold SafeGitRunner.run
  split
  · left; rfl
  · right; rfl

/-- A read-only runner call spawns only read-only invocations. -/
theorem run_true_events_ro (cfg : GitRunnerConfig) (oracle : Oracle) (root : String)
    (args : List String) :
    allReadOnly (SafeGitRunner.run cfg oracle root args true).2 = true := by
  rcases run_events_cases cfg oracle root args true with h | h <;> rw [h] <;> rfl

/-- The trace of `git_stdout` is exactly the trace of its runner call. -/
theorem git_stdout_events_eq (cfg : GitRunnerConfig) (oracle : Oracle) (root : String)
    (args : List String) (ctx : String) (ro : Bool) :
    (git_stdout cfg oracle root args ctx ro).2 = (SafeGitRunner.run cfg oracle root args ro).2 := by
  rcases h : SafeGitRunner.run cfg oracle root args ro with ⟨res, ev⟩
  unfold git_stdout
  rw [h]
  cases res with
  | error e => simp
  | ok r =>
    rcases hr : require_ok r ctx with e2 | r2 <;> simp [hr]

/-- A read-only `git_stdout` call spawns only read-only invocations. -/
theorem git_stdout_true_events_ro (cfg : GitRunnerConfig) (oracle : Oracle) (root : String)
    (args : List String) (ctx : String) :
    allReadOnly (git_stdout cfg oracle root args ctx true).2 = true := by
  rw [git_stdout_events_eq]
  exact run_true_events_ro cfg oracle root args

/-- The branch precondition check spawns only read-only invocations. -/
theorem check_branch_events_ro (cfg : GitRunnerConfig) (oracle : Oracle) (root : String)
    (p : Preconditions) : allReadOnly (check_branch cfg oracle root p).2 = true := by
  unfold check_branch
  split
  · have h2 := git_stdout_true_events_ro cfg oracle root
      ["rev-parse", "--abbrev-ref", "HEAD"] "precondition(branch)"
    split <;> rename_i x ev heq <;> rw [heq] at h2
    · simpa using h2
    · split <;> simpa using h2
  · rfl

/-- The HEAD precondition check spawns only read-only invocations. -/
theorem check_head_events_ro (cfg : GitRunnerConfig) (oracle : Oracle) (root : String)
    (p : Preconditions) : allReadOnly (check_head cfg oracle root p).2 = true := by
  unfold check_head
  split
  · have h2 := git_stdout_true_events_ro cfg oracle root
      ["rev-parse", "HEAD"] "precondition(head)"
    split <;> rename_i x ev heq <;> rw [heq] at h2
    · simpa using h2
    · split <;> simpa using h2
  · rfl

/-- The clean-tree precondition check spawns only read-only invocations. -/
theorem check_clean_events_ro (cfg : GitRunnerConfig) (oracle : Oracle) (root : String)
    (p : Preconditions) : allReadOnly (check_clean cfg oracle root p).2 = true := by
  unfold check_clean
  split
  · have h2 := git_stdout_true_events_ro cfg oracle root
      ["status", "--porcelain"] "precondition(clean)"
    split <;> rename_i x ev heq <;> rw [heq] at h2
    · simpa using h2
    · split <;> simpa using h2
  · rfl

/-- The no-conflicts precondition check spawns only read-only invocations. -/
theorem check_conflicts_events_ro (cfg : GitRunnerConfig) (oracle : Oracle) (root : String)
    (p : Preconditions) : allReadOnly (check_conflicts cfg oracle root p).2 = true := by
  unfold check_conflicts
  split
  · have h2 := git_stdout_true_events_ro cfg oracle root
      ["diff", "--name-only", "--diff-filter=U"] "precondition(conflicts)"
    split <;> rename_i x ev heq <;> rw [heq] at h2
    · simpa using h2
    · split <;> simpa using h2
  · rfl

/-- Sequencing preserves read-only-ness of traces. -/
theorem pcStep_events_ro (prev : Except FlowError Unit × List RunEvent)
    (next : Unit → Except FlowError Unit × List RunEvent)
    (h1 : allReadOnly prev.2 = true) (h2 : allReadOnly (next ()).2 = true) :
    allReadOnly (pcStep prev next).2 = true := by
  unfold pcStep
  rcases prev with ⟨res, ev⟩
  cases res with
  | error e => simpa using h1
  | ok u =>
    simp only [allReadOnly, List.all_append] at *
    simp [h1, h2]

/-- The precondition re-check as a whole spawns only read-only invocations. -/
theorem check_preconditions_events_ro (cfg : GitRunnerConfig) (oracle : Oracle)
    (root : String) (p : Preconditions) :
    allReadOnly (check_preconditions cfg oracle root p).2 = true := by
  unfold check_preconditions
  exact pcStep_events_ro _ _
    (pcStep_events_ro _ _
      (pcStep_events_ro _ _ (check_branch_events_ro cfg oracle root p)
        (check_head_events_ro cfg oracle root p))
      (check_clean_events_ro cfg oracle root p))
    (check_conflicts_events_ro cfg oracle root p)

/-- A runner call can only raise `GitPolicyError` (and in that case nothing
was spawned); every other failure of the embedded `run` is impossible. -/
theorem run_error_eq (cfg : GitRunnerConfig) (oracle : Oracle) (root : String)
    (args : List String) (ro : Bool) (e : FlowError) (ev : List RunEvent)
    (h : SafeGitRunner.run cfg oracle root args ro = (Except.error e, ev)) :
    (∃ msg, e = FlowError.policyError msg) ∧ ev = [] := by
  unfold SafeGitRunner.run at h
  split at h
  · rw [Prod.mk.injEq] at h
    obtain ⟨h1, h2⟩ := h
    rw [Except.error.injEq] at h1
    exact ⟨⟨_, h1.symm⟩, h2.symm⟩
  · rw [Prod.mk.injEq] at h
    exact absurd h.1 (by simp)

/-- `require_ok` can only raise `GitExecutionError`. -/
theorem require_ok_error_eq (res : GitRunResult) (ctx : String) (e : FlowError)
    (h : require_ok res ctx = Except.error e) :
    ∃ msg, e = FlowError.executionError msg := by
  unfold require_ok at h
  split at h
  · rw [Except.error.injEq] at h
    exact ⟨_, h.symm⟩
  · exact absurd h (by simp)

/-- Case analysis of one `execute_confirmed` call: either it raises and the
store is unchanged (and when the error is a validation error, nothing
mutating was spawned), or it succeeds against a fetched confirmation whose
root matched, and the new store is exactly `mark_used` of the old one. -/
theorem execute_inv (cfg : GitRunnerConfig) (oracle : Oracle) (hash : String → String)
    (now : Int) (st : Store) (root cid phrase : String) :
    (∃ e, (execute_confirmed cfg oracle hash now st root cid phrase).1 = Except.error e ∧
      (execute_confirmed cfg oracle hash now st root cid phrase).2.1 = st ∧
      (FlowError.isValidation e = true →
        allReadOnly (execute_confirmed cfg oracle hash now st root cid phrase).2.2 = true)) ∨
    (∃ r c, FileConfirmationStore.get st cid = some c ∧ c.root = root ∧
      (execute_confirmed cfg oracle hash now st root cid phrase).1 = Except.ok r ∧
      (execute_confirmed cfg oracle hash now st root cid phrase).2.1 =
        FileConfirmationStore.mark_used st c r) := by
  unfold execute_confirmed
  rcases hget : FileConfirmationStore.get st cid with _ | c
  · left
    exact ⟨FlowError.unknownId, rfl, rfl, fun _ => rfl⟩
  · dsimp only
    by_cases h2 : c.root ≠ root
    · rw [if_pos h2]
      left
      exact ⟨FlowError.rootMismatch, rfl, rfl, fun _ => rfl⟩
    · rw [if_neg h2]
      by_cases h3 : c.can_use now = false
      · rw [if_pos h3]
        left
        exact ⟨FlowError.cannotUse, rfl, rfl, fun _ => rfl⟩
      · rw [if_neg h3]
        by_cases h4 : stripStr phrase ≠ ("I CONFIRM " ++ cid)
        · rw [if_pos h4]
          left
          exact ⟨FlowError.wrongPhrase, rfl, rfl, fun _ => rfl⟩
        · rw [if_neg h4]
          by_cases h5 : command_hash hash c.args ≠ c.cmd_hash
          · rw [if_pos h5]
            left
            exact ⟨FlowError.hashMismatch, rfl, rfl, fun _ => rfl⟩
          · rw [if_neg h5]
            rcases hpc : check_preconditions cfg oracle root c.preconditions with ⟨pcres, ev⟩
            have hpcro : allReadOnly ev = true := by
              have h6 := check_preconditions_events_ro cfg oracle root c.preconditions
              rw [hpc] at h6
              exact h6
            cases pcres with
            | error e2 =>
              left
              exact ⟨e2, rfl, rfl, fun _ => hpcro⟩
            | ok u =>
              dsimp only
              rcases hrun : SafeGitRunner.run cfg oracle root c.args false with ⟨runres, ev2⟩
              cases runres with
              | error e2 =>
                left
                refine ⟨e2, rfl, rfl, fun hv => ?_⟩
                obtain ⟨⟨msg, hmsg⟩, hev2⟩ := run_error_eq cfg oracle root c.args false e2 ev2 hrun
                rw [hmsg] at hv
                exact absurd hv (by simp [FlowError.isValidation])
              | ok res =>
                dsimp only
                rcases hreq : require_ok res "execute_confirmed(run)" with e2 | r2
                · left
                  refine ⟨e2, rfl, rfl, fun hv => ?_⟩
                  obtain ⟨msg, hmsg⟩ := require_ok_error_eq res "execute_confirmed(run)" e2 hreq
                  rw [hmsg] at hv
                  exact absurd hv (by simp [FlowError.isValidation])
                · right
                  refine ⟨_, c, rfl, not_ne_iff.mp h2, rfl, rfl⟩

/-- C7 (amended): the runner raises `GitPolicyError` before any process is
spawned whenever the argument list is empty (in any mode), and, in read-only
mode, whenever the whitespace-stripped, lowercased leading verb is not in the
16-verb allowlist. (The unstripped lowercased verb is not enough: the source
strips each argument first, see the counterexample.) -/
theorem run_policy_gate (cfg : GitRunnerConfig) (oracle : Oracle) (root : String)
    (args : List String) (read_only : Bool) :
    (args = [] →
      isPolicyErrorResult (SafeGitRunner.run cfg oracle root args read_only).1 = true ∧
      (SafeGitRunner.run cfg oracle root args read_only).2 = []) ∧
    (read_only = true → args ≠ [] →
      ((args.map stripStr).map toLowerStr).headD "" ∉ cfg.read_only_allowlist →
      isPolicyErrorResult (SafeGitRunner.run cfg oracle root args read_only).1 = true ∧
      (SafeGitRunner.run cfg oracle root args read_only).2 = []) := by
  constructor
  · intro h
    subst h
    exact ⟨rfl, rfl⟩
  · intro hro hne hmem
    subst hro
    cases args with
    | nil => exact absurd rfl hne
    | cons a rest =>
      have hv : validate_args cfg (a :: rest) true =
          some ("Blocked git subcommand in read-only mode: " ++
            (((a :: rest).map stripStr).map toLowerStr).headD "") := by
        unfold validate_args
        rw [if_neg (by simp)]
        rw [if_neg (by simp)]
        dsimp only
        rw [if_pos hmem]
      unfold SafeGitRunner.run
      rw [hv]
      exact ⟨rfl, rfl⟩

/-- Witness for C7 (amended) at concrete inputs: the empty argument list and
the non-allowlisted verb `push` are both refused with no spawn. -/
theorem run_policy_gate_witness :
    (isPolicyErrorResult (SafeGitRunner.run defaultConfig trivialOracle "/repo" [] true).1 = true ∧
      (SafeGitRunner.run defaultConfig trivialOracle "/repo" [] true).2 = []) ∧
    (isPolicyErrorResult
        (SafeGitRunner.run defaultConfig trivialOracle "/repo" ["push"] true).1 = true ∧
      (SafeGitRunner.run defaultConfig trivialOracle "/repo" ["push"] true).2 = []) :=
  ⟨(run_policy_gate defaultConfig trivialOracle "/repo" [] true).1 rfl,
   (run_policy_gate defaultConfig trivialOracle "/repo" ["push"] true).2 rfl
     (by decide) (by decide)⟩

/-- Counterexample to C7 as stated: for the argument list `[" status"]` in
read-only mode, the lowercased leading verb `" status"` is not in the
allowlist, yet `run` does not raise `PolicyError`: the source strips the
argument before the allowlist check, so the process is spawned. -/
theorem run_readonly_allowlist_counterexample :
    toLowerStr " status" ∉ defaultConfig.read_only_allowlist ∧
    (SafeGitRunner.run defaultConfig trivialOracle "/repo" [" status"] true).2 =
      [{ args := [" status"], read_only := true }] ∧
    (SafeGitRunner.run defaultConfig trivialOracle "/repo" [" status"] true).1 =
      Except.ok { argv := ["git", " status"], root := "/repo", stdout := "", stderr := "",
                  exit_code := 0, duration_ms := 0, timed_out := false,
                  output_truncated := false } := by
  refine ⟨by decide, by decide, by decide⟩

/-- C6: for every argument list whose leading verb lowers into the deny set,
`propose_git_command` rejects it regardless of repository state (any oracle)
and of the store contents: the outcome is the rejection error, the store is
returned unchanged (no token persisted, no audit line), and no process is
spawned. -/
theorem propose_rejects_deny_verbs (cfg : GitRunnerConfig) (oracle : Oracle)
    (hash : String → String) (now : Int) (st : Store) (root : String)
    (a : String) (rest : List String) (expected_branch : Option String)
    (require_clean : Bool) (hdeny : toLowerStr a ∈ denySet) :
    propose_git_command cfg oracle hash now st root (a :: rest) expected_branch require_clean =
      (Except.error (FlowError.commandRejected
        ("Command rejected: " ++ ("Denied subcommand: " ++ toLowerStr a))), st, []) := by
  simp [propose_git_command, classify_git_args, hdeny]

/-- Witness for C6: proposing `push --force` against an empty store is
rejected with the store unchanged and no spawn. -/
theorem propose_rejects_deny_verbs_witness :
    propose_git_command defaultConfig trivialOracle idHash 0 emptyStore "/repo"
      ["push", "--force"] none false =
      (Except.error (FlowError.commandRejected
        ("Command rejected: " ++ ("Denied subcommand: " ++ toLowerStr "push"))),
       emptyStore, []) :=
  propose_rejects_deny_verbs defaultConfig trivialOracle idHash 0 emptyStore "/repo"
    "push" ["--force"] none false (by decide)

/-- C3: no partial application. Whenever `execute_confirmed` is rejected by a
validation step (unknown id, root mismatch, expired or used token, wrong
confirmation phrase, command-hash mismatch, or a failed precondition
re-check), its invocation trace contains only read-only runner calls: the
underlying mutating command was never spawned. -/
theorem execute_rejected_no_mutating_run (cfg : GitRunnerConfig) (oracle : Oracle)
    (hash : String → String) (now : Int) (st : Store) (root cid phrase : String)
    (e : FlowError)
    (he : (execute_confirmed cfg oracle hash now st root cid phrase).1 = Except.error e)
    (hv : FlowError.isValidation e = true) :
    allReadOnly (execute_confirmed cfg oracle hash now st root cid phrase).2.2 = true := by
  rcases execute_inv cfg oracle hash now st root cid phrase with
    ⟨e2, he2, _, hro⟩ | ⟨r, c, _, _, hok, _⟩
  · have heq : e2 = e := by
      rw [he2] at he
      exact (Except.error.injEq e2 e) ▸ he
    rw [heq] at hro
    exact hro hv
  · rw [hok] at he
    exact absurd he (by simp)

/-- Witness for C3: an execute against an empty store is rejected with
`unknownId` and its trace is all read-only (here, empty). -/
theorem execute_rejected_no_mutating_run_witness :
    allReadOnly (execute_confirmed defaultConfig trivialOracle idHash 0 emptyStore
      "/repo" "nope" "whatever").2.2 = true :=
  execute_rejected_no_mutating_run defaultConfig trivialOracle idHash 0 emptyStore
    "/repo" "nope" "whatever" FlowError.unknownId rfl rfl

/-- C1 (amended): when every validation and precondition check passes and the
underlying run returns a non-zero exit code, the failure surfaces as an
`ExecutionError` and the attempt is NOT counted as completed: `mark_used` is
never reached, so the persisted store (ledger and audit log) is unchanged. -/
theorem execute_failed_run_not_counted (cfg : GitRunnerConfig) (oracle : Oracle)
    (hash : String → String) (now : Int) (st : Store) (root cid phrase : String)
    (c : Confirmation) (ev : List RunEvent)
    (hget : FileConfirmationStore.get st cid = some c)
    (hroot : c.root = root)
    (huse : c.can_use now = true)
    (hphrase : stripStr phrase = "I CONFIRM " ++ cid)
    (hhash : command_hash hash c.args = c.cmd_hash)
    (hpc : check_preconditions cfg oracle root c.preconditions = (Except.ok (), ev))
    (hval : validate_args cfg c.args false = none)
    (hexit : (oracle c.args).exit_code ≠ 0) :
    (execute_confirmed cfg oracle hash now st root cid phrase).1 =
      Except.error (FlowError.executionError ("execute_confirmed(run) failed: " ++
        stripStr (apply_output_ceiling cfg.max_output_chars (oracle c.args).stdout
          (oracle c.args).stderr).2.1)) ∧
    (execute_confirmed cfg oracle hash now st root cid phrase).2.1 = st := by
  unfold execute_confirmed
  rw [hget]
  dsimp only
  rw [if_neg (by rw [hroot]; exact fun hne => hne rfl)]
  rw [if_neg (by rw [huse]; exact fun hne => absurd hne (by simp))]
  rw [if_neg (by rw [hphrase]; exact fun hne => hne rfl)]
  rw [if_neg (by rw [hhash]; exact fun hne => hne rfl)]
  rw [hpc]
  dsimp only
  unfold SafeGitRunner.run
  rw [hval]
  dsimp only
  unfold require_ok
  rw [if_pos hexit]
  exact ⟨rfl, rfl⟩

/-- Witness for C1 (amended): the concrete failing-commit scenario surfaces
the execution error and leaves the store untouched. -/
theorem execute_failed_run_not_counted_witness :
    (execute_confirmed defaultConfig failingCommitOracle idHash 0 commitStore "/repo"
        "tok1" "I CONFIRM tok1").1 =
      Except.error (FlowError.executionError "execute_confirmed(run) failed: boom") ∧
    (execute_confirmed defaultConfig failingCommitOracle idHash 0 commitStore "/repo"
        "tok1" "I CONFIRM tok1").2.1 = commitStore := by
  have h := execute_failed_run_not_counted defaultConfig failingCommitOracle idHash 0
    commitStore "/repo" "tok1" "I CONFIRM tok1" commitConfirmation
    [{ args := ["diff", "--name-only", "--diff-filter=U"], read_only := true }]
    (by decide) (by decide) (by decide) (by decide) (by decide) (by decide)
    (by decide) (by decide)
  refine ⟨?_, h.2⟩
  rw [h.1]
  decide

/-- Counterexample to C1 as stated: in the concrete failing-commit scenario
every validation and precondition check passes and the run exits non-zero, so
the `ExecutionError` surfaces — but `mark_used` is NOT recorded: the
persisted `used` count is still 0 and no "executed" audit record exists,
contradicting "the confirmation's usedCount is incremented in the persisted
ledger despite the error". -/
theorem execute_failed_run_counted_counterexample :
    (execute_confirmed defaultConfig failingCommitOracle idHash 0 commitStore "/repo"
        "tok1" "I CONFIRM tok1").1 =
      Except.error (FlowError.executionError "execute_confirmed(run) failed: boom") ∧
    lookupLedger (execute_confirmed defaultConfig failingCommitOracle idHash 0 commitStore
        "/repo" "tok1" "I CONFIRM tok1").2.1.ledger "tok1" = some commitConfirmation ∧
    commitConfirmation.used = 0 ∧
    (execute_confirmed defaultConfig failingCommitOracle idHash 0 commitStore "/repo"
        "tok1" "I CONFIRM tok1").2.1.audit = [] := by
  refine ⟨by decide, by decide, rfl, by decide⟩

/-- C2: one-time use. For a stored confirmation with `max_uses = 1`, after one
successful `execute_confirmed` with its id and phrase, any second
`execute_confirmed` on the resulting store with the same id fails with the
`cannotUse` error (`can_use` is false, the persisted `used` count having
reached `max_uses = 1`) and its trace is empty: the underlying command is not
run again — for every later wall-clock time, repository state, configuration
and confirmation phrase. -/
theorem one_time_use (cfg cfg2 : GitRunnerConfig) (oracle oracle2 : Oracle)
    (hash hash2 : String → String) (now now2 : Int) (st : Store)
    (root phrase phrase2 cid : String) (c : Confirmation) (r : ExecOutput)
    (hc : lookupLedger st.ledger cid = some c)
    (hid : c.confirmation_id = cid)
    (hmax : c.max_uses = 1)
    (h1 : (execute_confirmed cfg oracle hash now st root cid phrase).1 = Except.ok r) :
    (execute_confirmed cfg2 oracle2 hash2 now2
      (execute_confirmed cfg oracle hash now st root cid phrase).2.1 root cid phrase2).1 =
        Except.error FlowError.cannotUse ∧
    (execute_confirmed cfg2 oracle2 hash2 now2
      (execute_confirmed cfg oracle hash now st root cid phrase).2.1 root cid phrase2).2.2 =
        [] := by
  rcases execute_inv cfg oracle hash now st root cid phrase with
    ⟨e, he, _, _⟩ | ⟨r2, c2, hget2, hroot, hok, hst⟩
  · rw [h1] at he
    exact absurd he (by simp)
  · have hcc : c2 = c := by
      have hgc : FileConfirmationStore.get st cid = some c := hc
      rw [hget2] at hgc
      exact (Option.some.injEq c2 c) ▸ hgc
    subst hcc
    rw [hst]
    unfold FileConfirmationStore.mark_used
    rw [hid, hc]
    dsimp only
    unfold execute_confirmed FileConfirmationStore.get
    dsimp only
    rw [hid]
    rw [lookup_insert_self]
    dsimp only
    rw [if_neg (fun hne => hne hroot)]
    rw [if_pos (by
      have hle : c2.max_uses ≤ c2.used + 1 := by
        rw [hmax]
        omega
      simp [Confirmation.can_use, Confirmation.is_expired, hle])]
    exact ⟨rfl, rfl⟩

/-- Witness for C2: the concrete commit confirmation is executed once
successfully; the replay attempt on the updated store fails with `cannotUse`
and an empty trace. -/
theorem one_time_use_witness :
    (execute_confirmed defaultConfig trivialOracle idHash 0
      (execute_confirmed defaultConfig trivialOracle idHash 0 commitStore "/repo" "tok1"
        "I CONFIRM tok1").2.1 "/repo" "tok1" "I CONFIRM tok1").1 =
      Except.error FlowError.cannotUse ∧
    (execute_confirmed defaultConfig trivialOracle idHash 0
      (execute_confirmed defaultConfig trivialOracle idHash 0 commitStore "/repo" "tok1"
        "I CONFIRM tok1").2.1 "/repo" "tok1" "I CONFIRM tok1").2.2 = [] :=
  one_time_use defaultConfig defaultConfig trivialOracle trivialOracle idHash idHash 0 0
    commitStore "/repo" "I CONFIRM tok1" "I CONFIRM tok1" "tok1" commitConfirmation
    commitOkOutput (by decide) rfl rfl (by decide)

end GroundedGitMcp
